import Mathlib

/-!
Verification development for the spud_rs binary serialization library.

The Rust sources are shallowly embedded: bytes are `Nat` values below 256,
byte buffers are `List Nat`, fallible operations return `DOut`, and the
panicking paths of the source (slice indexing out of bounds, `split_at`
past the end) are represented by the `DOut.panic` constructor.  The
`SPUD_VERSION` constant is injected at build time by the crate and is kept
as an explicit parameter of the embedded functions; `sampleVersion` below
instantiates it with the documented value for concrete evaluations.
-/

set_option maxRecDepth 20000

/-- Outcome of an embedded Rust computation: a returned value, a returned
error (the `SpudError` enum carried as its message string), or a panic. -/
inductive DOut (α : Type) where
  | ok (a : α)
  | err (e : String)
  | panic
deriving DecidableEq, Repr

namespace DOut

def bind {α β : Type} : DOut α → (α → DOut β) → DOut β
  | ok a, f => f a
  | err e, _ => err e
  | panic, _ => panic

instance : Monad DOut where
  pure := ok
  bind := bind

end DOut

/-- Embeds `SpudNumberTypes` from src/spud_types.rs. -/
inductive SpudNumberTypes where
  | I8 | I16 | I32 | I64 | I128
  | U8 | U16 | U32 | U64 | U128
  | F32 | F64
deriving DecidableEq, Repr, Fintype

/-- Embeds `SpudTypes` from src/spud_types.rs (the current enum with the
nested numeric sub-vocabulary). -/
inductive SpudTypes where
  | Null
  | Bool
  | Number (nt : SpudNumberTypes)
  | Decimal
  | String
  | BinaryBlob
  | Date
  | Time
  | DateTime
  | ArrayStart
  | ArrayEnd
  | ObjectStart
  | ObjectEnd
  | FieldNameId
  | FieldNameListEnd
deriving DecidableEq, Repr, Fintype

namespace SpudNumberTypes

/-- Embeds `SpudNumberTypes::as_u8` (the discriminant values). -/
def asU8 : SpudNumberTypes → Nat
  | I8 => 0x05
  | I16 => 0x06
  | I32 => 0x07
  | I64 => 0x08
  | I128 => 0x19
  | U8 => 0x09
  | U16 => 0x0A
  | U32 => 0x0B
  | U64 => 0x0C
  | U128 => 0x20
  | F32 => 0x0D
  | F64 => 0x0E

/-- Embeds `SpudNumberTypes::from_u8`. -/
def fromU8 (value : Nat) : Option SpudNumberTypes :=
  if value = 0x05 then some I8
  else if value = 0x06 then some I16
  else if value = 0x07 then some I32
  else if value = 0x08 then some I64
  else if value = 0x19 then some I128
  else if value = 0x09 then some U8
  else if value = 0x0A then some U16
  else if value = 0x0B then some U32
  else if value = 0x0C then some U64
  else if value = 0x20 then some U128
  else if value = 0x0D then some F32
  else if value = 0x0E then some F64
  else none

end SpudNumberTypes

namespace SpudTypes

/-- Embeds `SpudTypes::as_u8`. -/
def asU8 : SpudTypes → Nat
  | Null => 0x03
  | Bool => 0x04
  | Number nt => nt.asU8
  | Decimal => 0x15
  | String => 0x0F
  | BinaryBlob => 0x14
  | Date => 0x16
  | Time => 0x17
  | DateTime => 0x18
  | ArrayStart => 0x10
  | ArrayEnd => 0x11
  | ObjectStart => 0x12
  | ObjectEnd => 0x13
  | FieldNameId => 0x02
  | FieldNameListEnd => 0x01

/-- Embeds `SpudTypes::from_u8`.  The numeric arm of the source matches the
range pattern `5_u8..=14_u8` and unwraps `SpudNumberTypes::from_u8`; every
other unlisted byte, including 0x19 and 0x20, falls to `None`. -/
def fromU8 (value : Nat) : Option SpudTypes :=
  if value = 0x01 then some FieldNameListEnd
  else if value = 0x02 then some FieldNameId
  else if value = 0x03 then some Null
  else if value = 0x04 then some Bool
  else if 5 ≤ value ∧ value ≤ 14 then
    (SpudNumberTypes.fromU8 value).map Number
  else if value = 0x0F then some String
  else if value = 0x10 then some ArrayStart
  else if value = 0x11 then some ArrayEnd
  else if value = 0x12 then some ObjectStart
  else if value = 0x13 then some ObjectEnd
  else if value = 0x14 then some BinaryBlob
  else if value = 0x15 then some Decimal
  else if value = 0x16 then some Date
  else if value = 0x17 then some Time
  else if value = 0x18 then some DateTime
  else none

end SpudTypes

/-- Little-endian byte encoding of `value` over `width` bytes, as produced
by the Rust `to_le_bytes` calls (values are taken modulo 2^(8*width)). -/
def leBytes : Nat → Nat → List Nat
  | 0, _ => []
  | w + 1, value => value % 256 :: leBytes w (value / 256)

/-- Embeds `add_value_length` from src/functions/add_value_len.rs: the
`try_push!` chain frames the length with the narrowest unsigned tag whose
range contains it (u8, then u16, u32, u64).  On a 64-bit target the u64
conversion from `usize` always succeeds, so the final fall-through never
runs; it is kept for faithfulness to the macro expansion. -/
def addValueLength (data : List Nat) (valueLen : Nat) : List Nat :=
  if valueLen < 256 then
    data ++ (SpudTypes.Number SpudNumberTypes.U8).asU8 :: leBytes 1 valueLen
  else if valueLen < 65536 then
    data ++ (SpudTypes.Number SpudNumberTypes.U16).asU8 :: leBytes 2 valueLen
  else if valueLen < 4294967296 then
    data ++ (SpudTypes.Number SpudNumberTypes.U32).asU8 :: leBytes 4 valueLen
  else if valueLen < 18446744073709551616 then
    data ++ (SpudTypes.Number SpudNumberTypes.U64).asU8 :: leBytes 8 valueLen
  else
    data

/-- ASCII bytes of the version string `SPUD-0.8.1`.  `SPUD_VERSION` is
injected by the build script from the crate version; the embedded
functions take the version bytes as an explicit parameter and the
theorems either quantify over them or use this documented sample value. -/
def sampleVersion : List Nat := [83, 80, 85, 68, 45, 48, 46, 56, 46, 49]

/-- Builder-side shared state: the tree-wide byte buffer, the field-name
registry (`IndexMap<(String, u8), u8>` as an insertion-ordered association
list keyed by name bytes and stored length), the 256-slot seen-ID tracker,
the stream of random bytes that `getrandom::fill` would produce, and the
root object registry.  The per-object child registries of the source feed
only the write-free encode pass (see `objEncodePassList`), so the registry
is kept as the flat list of registered object identities. -/
structure BState where
  data : List Nat
  fieldNames : List ((List Nat × Nat) × Nat)
  seenIds : List Bool
  rng : List Nat
  objects : List (List Nat)
deriving DecidableEq, Repr

/-- Embeds `SpudBuilderSync::new`: empty buffer and registries, with seen
IDs 0 and 1 reserved at creation. -/
def builderNew (rng : List Nat) : BState :=
  { data := []
    fieldNames := []
    seenIds := ((List.replicate 256 false).set 0 true).set 1 true
    rng := rng
    objects := [] }

/-- Embeds `generate_u8_id` from src/functions/generate_u8_id.rs: draw the
next random byte; retry while the tracker marks it used; mark and return.
The source retries by recursion on fresh `getrandom` output, so the
recursion here is on the supplied random stream; an exhausted stream maps
to the error path of a failing `getrandom::fill`. -/
def generateU8Id : List Bool → List Nat → DOut (Nat × List Bool × List Nat)
  | _, [] => .err "getrandom failed"
  | seen, r :: rest =>
    if seen.getD r false then generateU8Id seen rest
    else .ok (r, seen.set r true, rest)

/-- `IndexMap::get` over the field registry. -/
def lookupFieldId : List ((List Nat × Nat) × Nat) → (List Nat × Nat) → Option Nat
  | [], _ => none
  | (k, v) :: rest, key => if k = key then some v else lookupFieldId rest key

/-- Embeds `SpudObjectSync::add_field_name`: build the `(name, len)` key
(the `u8::try_from` on the length fails for names longer than 255 bytes),
reuse the registered ID or allocate and register a fresh one, then push
the field token `[FieldNameId, id]` onto the shared buffer here. -/
def addFieldName (s : BState) (fieldName : List Nat) : DOut (Nat × BState) :=
  if 255 < fieldName.length then .err "field name longer than 255 bytes"
  else
    match lookupFieldId s.fieldNames (fieldName, fieldName.length) with
    | some id =>
      .ok (id, { s with data := s.data ++ [SpudTypes.FieldNameId.asU8, id] })
    | none =>
      match generateU8Id s.seenIds s.rng with
      | .ok (id, seen2, rng2) =>
        .ok (id, { s with
          fieldNames := s.fieldNames ++ [((fieldName, fieldName.length), id)]
          seenIds := seen2
          rng := rng2
          data := s.data ++ [SpudTypes.FieldNameId.asU8, id] })
      | .err e => .err e
      | .panic => .panic

/-- `bool::write_spud_bytes`: tag, then one byte 0 or 1. -/
def writeSpudBool (b : Bool) (data : List Nat) : List Nat :=
  data ++ [SpudTypes.Bool.asU8, if b then 1 else 0]

/-- `u8::write_spud_bytes`: the U8 numeric tag, then the little-endian byte. -/
def writeSpudU8 (n : Nat) (data : List Nat) : List Nat :=
  data ++ (SpudTypes.Number SpudNumberTypes.U8).asU8 :: leBytes 1 n

/-- `()::write_spud_bytes` from src/spud_builder/spud_type_ext.rs: the
`impl_spud_type_ext` macro pushes the `Null` tag, then calls `write_null`,
which pushes the `Null` tag a second time. -/
def writeSpudNull (data : List Nat) : List Nat :=
  data ++ [SpudTypes.Null.asU8, SpudTypes.Null.asU8]

/-- `SpudString::write_spud_bytes`: the string tag, the framed byte count
via `add_value_length`, then the raw bytes. -/
def writeSpudString (strBytes : List Nat) (data : List Nat) : List Nat :=
  addValueLength (data ++ [SpudTypes.String.asU8]) strBytes.length ++ strBytes

/-- `SpudObjectSync::add_value` for the value kinds the claims exercise:
resolve the field name (pushing the field token), then append the value
encoding to the shared buffer. -/
def addValueWith (s : BState) (fieldName : List Nat)
    (writer : List Nat → List Nat) : DOut BState :=
  match addFieldName s fieldName with
  | .ok (_, s1) => .ok { s1 with data := writer s1.data }
  | .err e => .err e
  | .panic => .panic

/-- Embeds `SpudObjectSync::new` up to identity generation: append the
doubled object-start marker, then the 10 identity bytes, and register the
object.  The identity bytes come from clock and random sources, so they
are an explicit parameter. -/
def objectStartWrite (s : BState) (oid : List Nat) : BState :=
  { s with
    data := s.data ++
      [SpudTypes.ObjectStart.asU8, SpudTypes.ObjectStart.asU8] ++ oid
    objects := s.objects ++ [oid] }

/-- Embeds `SpudBuilderSync::object`: create the object (markers and
identity appended immediately), run the caller callback, and push the
doubled object-end marker as soon as the callback returns. -/
def builderObject (s : BState) (oid : List Nat)
    (f : BState → DOut BState) : DOut BState :=
  match f (objectStartWrite s oid) with
  | .ok s2 =>
    .ok { s2 with
      data := s2.data ++ [SpudTypes.ObjectEnd.asU8, SpudTypes.ObjectEnd.asU8] }
  | .err e => .err e
  | .panic => .panic

/-- Embeds the per-object pass of `SpudBuilderSync::encode`: the source
iterates the registry calling `SpudObjectSync::encode`, whose body only
locks its child registry and recurses into it, performing no byte-buffer
write, so the pass returns the buffer unchanged for every registered
object. -/
def objEncodePassList : List (List Nat) → List Nat → List Nat
  | [], d => d
  | _ :: rest, d => objEncodePassList rest d

/-- Embeds `initialise_header` from src/functions/initialise_header.rs
(the async twin in src/functions/async/initialise_header_async.rs is byte
for byte identical): version bytes, then `[stored length][name bytes][id]`
per registry entry in insertion order, the field-name-list-end tag, the
body, and the fixed trailer bytes `0xDE 0xAD 0xBE 0xEF`. -/
def initialiseHeader (ver : List Nat)
    (fieldNames : List ((List Nat × Nat) × Nat)) (data : List Nat) : List Nat :=
  ver ++
  (fieldNames.flatMap fun e => e.1.2 :: (e.1.1 ++ [e.2])) ++
  [SpudTypes.FieldNameListEnd.asU8] ++
  data ++ [0xDE, 0xAD, 0xBE, 0xEF]

/-- Embeds `SpudBuilderSync::encode`: run the write-free per-object pass,
build the header around the body, then clear the shared buffer and store
the header bytes in it; the header bytes are also the return value. -/
def builderEncode (ver : List Nat) (s : BState) : List Nat × BState :=
  let afterPass := objEncodePassList s.objects s.data
  let header := initialiseHeader ver s.fieldNames afterPass
  (header, { s with data := header })

/-- The bs58 alphabet (digits and letters without 0, O, I, l), as ASCII
codes; the decoder displays object identities through `bs58::encode`. -/
def b58Alphabet : List Nat :=
  [49, 50, 51, 52, 53, 54, 55, 56, 57,
   65, 66, 67, 68, 69, 70, 71, 72, 74, 75, 76, 77, 78,
   80, 81, 82, 83, 84, 85, 86, 87, 88, 89, 90,
   97, 98, 99, 100, 101, 102, 103, 104, 105, 106, 107,
   109, 110, 111, 112, 113, 114, 115, 116, 117, 118, 119, 120, 121, 122]

/-- Base-58 digits of a number, least significant first; the fuel bounds
the digit count and is structural so that concrete runs reduce. -/
def b58DigitsRev : Nat → Nat → List Nat
  | 0, _ => []
  | _ + 1, 0 => []
  | fuel + 1, n + 1 => ((n + 1) % 58) :: b58DigitsRev fuel ((n + 1) / 58)

def countLeadingZeros : List Nat → Nat
  | [] => 0
  | b :: rest => if b = 0 then countLeadingZeros rest + 1 else 0

def bytesToNat (bytes : List Nat) : Nat :=
  bytes.foldl (fun acc b => acc * 256 + b) 0

/-- Embeds the external `bs58::encode(..).into_string()` collaborator on
byte slices: one leading alphabet-first character per leading zero byte,
then the base-58 digits of the big-endian value, most significant first;
the result is the ASCII byte list of the display string. -/
def b58Encode (bytes : List Nat) : List Nat :=
  let z := countLeadingZeros bytes
  let digits := (b58DigitsRev (bytes.length * 2 + 8) (bytesToNat bytes)).reverse
  List.replicate z 49 ++ digits.map (fun d => b58Alphabet.getD d 0)

/-- Decoded JSON-compatible values (`serde_json::Value` as produced by the
decoder).  Strings are carried as their byte lists.  Date, time and
datetime values are emitted by the source as display strings of their
validated components; the components are retained here.  Float and decimal
payloads are kept as their raw little-endian bytes: no claim under
verification decodes one, and their only further processing in the source
is display formatting (plus the float finiteness check). -/
inductive JValue where
  | nullV
  | boolV (b : Bool)
  | intV (n : Int)
  | strV (bytes : List Nat)
  | floatRaw (bytes : List Nat)
  | decimalRaw (bytes : List Nat)
  | dateV (year month day : Nat)
  | timeV (hour minute second nanosecond : Nat)
  | dateTimeV (year month day hour minute second nanosecond : Nat)
  | arrV (items : List JValue)
  | objV (fields : List (List Nat × JValue))

/-- The synthetic `oid` key (ASCII). -/
def oidKey : List Nat := [111, 105, 100]

/-- Little-endian unsigned decode (`uNN::from_le_bytes`). -/
def leDecode (bytes : List Nat) : Nat :=
  bytes.foldr (fun b acc => acc * 256 + b) 0

/-- Little-endian signed decode over `width` bytes (`iNN::from_le_bytes`,
two_s complement). -/
def sleDecode (width : Nat) (bytes : List Nat) : Int :=
  let u := leDecode bytes
  if u < 2 ^ (8 * width - 1) then (u : Int) else (u : Int) - 2 ^ (8 * width)

/-- Map insertion for the decoded object (existing key keeps its position
and gets the new value, otherwise the entry is appended). -/
def objInsert : List (List Nat × JValue) → List Nat → JValue → List (List Nat × JValue)
  | [], k, v => [(k, v)]
  | (k0, v0) :: rest, k, v =>
    if k0 = k then (k0, v) :: rest else (k0, v0) :: objInsert rest k v

/-- `IndexMap::insert` for the header-built ID-to-name map. -/
def fnInsert : List (Nat × List Nat) → Nat → List Nat → List (Nat × List Nat)
  | [], id, name => [(id, name)]
  | (k, v) :: rest, id, name =>
    if k = id then (k, name) :: rest else (k, v) :: fnInsert rest id name

/-- Rust `Vec`/slice indexing: the byte, or a panic out of bounds. -/
def listByte (l : List Nat) (i : Nat) : DOut Nat :=
  match l.get? i with
  | some b => .ok b
  | none => .panic

/-- The byte-copy loop of `SpudDecoder::new` (`bytes[cursor + i]` for
`i in 0..len`), which panics past the end. -/
def readRange (bytes : List Nat) (start len : Nat) : DOut (List Nat) :=
  if start + len ≤ bytes.length then .ok ((bytes.drop start).take len)
  else .panic

/-- Models `String::from_utf8` validity on a byte list. -/
def validUtf8 : List Nat → Bool
  | [] => true
  | b :: rest =>
    if b < 0x80 then validUtf8 rest
    else if 0xC2 ≤ b ∧ b ≤ 0xDF then
      match rest with
      | c1 :: rest2 =>
        if 0x80 ≤ c1 ∧ c1 ≤ 0xBF then validUtf8 rest2 else false
      | [] => false
    else if b = 0xE0 then
      match rest with
      | c1 :: c2 :: rest2 =>
        if (0xA0 ≤ c1 ∧ c1 ≤ 0xBF) ∧ (0x80 ≤ c2 ∧ c2 ≤ 0xBF) then validUtf8 rest2
        else false
      | _ => false
    else if (0xE1 ≤ b ∧ b ≤ 0xEC) ∨ b = 0xEE ∨ b = 0xEF then
      match rest with
      | c1 :: c2 :: rest2 =>
        if (0x80 ≤ c1 ∧ c1 ≤ 0xBF) ∧ (0x80 ≤ c2 ∧ c2 ≤ 0xBF) then validUtf8 rest2
        else false
      | _ => false
    else if b = 0xED then
      match rest with
      | c1 :: c2 :: rest2 =>
        if (0x80 ≤ c1 ∧ c1 ≤ 0x9F) ∧ (0x80 ≤ c2 ∧ c2 ≤ 0xBF) then validUtf8 rest2
        else false
      | _ => false
    else if b = 0xF0 then
      match rest with
      | c1 :: c2 :: c3 :: rest2 =>
        if (0x90 ≤ c1 ∧ c1 ≤ 0xBF) ∧ (0x80 ≤ c2 ∧ c2 ≤ 0xBF) ∧
            (0x80 ≤ c3 ∧ c3 ≤ 0xBF) then validUtf8 rest2
        else false
      | _ => false
    else if 0xF1 ≤ b ∧ b ≤ 0xF3 then
      match rest with
      | c1 :: c2 :: c3 :: rest2 =>
        if (0x80 ≤ c1 ∧ c1 ≤ 0xBF) ∧ (0x80 ≤ c2 ∧ c2 ≤ 0xBF) ∧
            (0x80 ≤ c3 ∧ c3 ≤ 0xBF) then validUtf8 rest2
        else false
      | _ => false
    else if b = 0xF4 then
      match rest with
      | c1 :: c2 :: c3 :: rest2 =>
        if (0x80 ≤ c1 ∧ c1 ≤ 0x8F) ∧ (0x80 ≤ c2 ∧ c2 ≤ 0xBF) ∧
            (0x80 ≤ c3 ∧ c3 ≤ 0xBF) then validUtf8 rest2
        else false
      | _ => false
    else false

/-- Embeds `DecoderObject` from src/spud_decoder/decode_object.rs: the
object byte slice, the cursor, the header-built ID-to-name map, the byte
cached by the last `next`, and the current-field slot. -/
structure DState where
  contents : List Nat
  index : Nat
  fieldNames : List (Nat × List Nat)
  currentByte : Nat
  currentField : List Nat
deriving DecidableEq, Repr

/-- Embeds `DecoderObject::next`: reject when `index + steps` reaches the
slice length, otherwise advance and cache the byte at the new cursor. -/
def dnext (steps : Nat) (st : DState) : DOut DState :=
  if st.contents.length ≤ st.index + steps then
    .err ("Index out of bounds, current index: " ++ toString st.index ++
      ", object length: " ++ toString st.contents.length ++
      ", tried to read: " ++ toString (st.index + steps))
  else
    .ok { st with
      index := st.index + steps
      currentByte := st.contents.getD (st.index + steps) 0 }

/-- Embeds `DecoderObject::read_bytes`: slice
`contents[index..index + steps]` (a panic past the end), then `next`. -/
def dreadBytes (steps : Nat) (st : DState) : DOut (List Nat × DState) :=
  if st.contents.length < st.index + steps then .panic
  else
    match dnext steps st with
    | .ok st2 => .ok ((st.contents.drop st.index).take steps, st2)
    | .err e => .err e
    | .panic => .panic

/-- `IndexMap::get` on the ID-to-name map. -/
def dlookupFieldName : List (Nat × List Nat) → Nat → Option (List Nat)
  | [], _ => none
  | (k, v) :: rest, id => if k = id then some v else dlookupFieldName rest id

/-- Embeds `DecoderObject::read_field_name`: advance onto the ID byte,
resolve it through the map (a decoding error when absent), store the name
in the current-field slot, and report one further step to consume. -/
def dreadFieldName (st : DState) : DOut (Nat × DState) := do
  let st1 ← dnext 1 st
  let fieldNameId ← listByte st1.contents st1.index
  match dlookupFieldName st1.fieldNames fieldNameId with
  | some name => pure (1, { st1 with currentField := name })
  | none =>
    DOut.err ("Field name ID " ++ toString fieldNameId ++
      " not found in field names map")

/-- Embeds `DecoderObject::read_variable_length_data`: advance onto the
length tag (U8/U16/U32/U64, anything else is a decoding error), advance
onto the length bytes, read and decode them little-endian. -/
def dreadVarLen (st : DState) : DOut (Nat × DState) := do
  let st1 ← dnext 1 st
  let w ←
    if st1.currentByte = (SpudTypes.Number SpudNumberTypes.U8).asU8 then pure 1
    else if st1.currentByte = (SpudTypes.Number SpudNumberTypes.U16).asU8 then pure 2
    else if st1.currentByte = (SpudTypes.Number SpudNumberTypes.U32).asU8 then pure 4
    else if st1.currentByte = (SpudTypes.Number SpudNumberTypes.U64).asU8 then pure 8
    else DOut.err "Expected: U8, U16, U32, U64, but got an unknown token"
  let st2 ← dnext 1 st1
  match dreadBytes w st2 with
  | .ok (bytes, st3) => pure (leDecode bytes, st3)
  | .err e => .err e
  | .panic => .panic

/-- Embeds the `number` decoder function: advance onto the payload, read
the fixed-width little-endian bytes of the numeric subtype.  Floats are
kept as raw payload (see `JValue`). -/
def dnumber (nt : SpudNumberTypes) (st : DState) : DOut (JValue × DState) := do
  let st1 ← dnext 1 st
  match nt with
  | .U8 => do
    let (bs, st2) ← dreadBytes 1 st1; pure (.intV (leDecode bs), st2)
  | .U16 => do
    let (bs, st2) ← dreadBytes 2 st1; pure (.intV (leDecode bs), st2)
  | .U32 => do
    let (bs, st2) ← dreadBytes 4 st1; pure (.intV (leDecode bs), st2)
  | .U64 => do
    let (bs, st2) ← dreadBytes 8 st1; pure (.intV (leDecode bs), st2)
  | .U128 => do
    let (bs, st2) ← dreadBytes 16 st1; pure (.intV (leDecode bs), st2)
  | .I8 => do
    let (bs, st2) ← dreadBytes 1 st1; pure (.intV (sleDecode 1 bs), st2)
  | .I16 => do
    let (bs, st2) ← dreadBytes 2 st1; pure (.intV (sleDecode 2 bs), st2)
  | .I32 => do
    let (bs, st2) ← dreadBytes 4 st1; pure (.intV (sleDecode 4 bs), st2)
  | .I64 => do
    let (bs, st2) ← dreadBytes 8 st1; pure (.intV (sleDecode 8 bs), st2)
  | .I128 => do
    let (bs, st2) ← dreadBytes 16 st1; pure (.intV (sleDecode 16 bs), st2)
  | .F32 => do
    let (bs, st2) ← dreadBytes 4 st1; pure (.floatRaw bs, st2)
  | .F64 => do
    let (bs, st2) ← dreadBytes 8 st1; pure (.floatRaw bs, st2)

/-- `Date::check_validity` day bound; the month-2 branch carries the leap
rule, and the chain is only ever reached with a month in 1..=12. -/
def maxDaysOf (year month : Nat) : Nat :=
  if month = 1 ∨ month = 3 ∨ month = 5 ∨ month = 7 ∨ month = 8 ∨
      month = 10 ∨ month = 12 then 31
  else if month = 4 ∨ month = 6 ∨ month = 9 ∨ month = 11 then 30
  else if (year % 4 = 0 ∧ year % 100 ≠ 0) ∨ year % 400 = 0 then 29
  else 28

/-- Embeds `DecoderObject::read_date` plus `Date::new` validation. -/
def readDate (bytes : List Nat) : DOut (Nat × Nat × Nat) :=
  let year := leDecode (bytes.take 2)
  let month := bytes.getD 2 0
  let day := bytes.getD 3 0
  if ¬(1 ≤ month ∧ month ≤ 12) then
    .err "The month must be between 1 and 12"
  else if ¬(1 ≤ day ∧ day ≤ maxDaysOf year month) then
    .err ("Invalid day. The month " ++ toString month ++ " of the year " ++
      toString year ++ " has " ++ toString (maxDaysOf year month) ++ " days.")
  else .ok (year, month, day)

/-- Embeds `DecoderObject::read_time` plus `Time::new` validation. -/
def readTime (bytes : List Nat) : DOut (Nat × Nat × Nat × Nat) :=
  let hour := bytes.getD 0 0
  let minute := bytes.getD 1 0
  let second := bytes.getD 2 0
  let nanosecond := leDecode ((bytes.drop 3).take 4)
  if 23 < hour then .err "Hour must be between 0 and 23"
  else if 59 < minute then .err "Minute must be between 0 and 59"
  else if 59 < second then .err "Second must be between 0 and 59"
  else if 1000000000 ≤ nanosecond then
    .err "Nanosecond must be less than 1 billion"
  else .ok (hour, minute, second, nanosecond)

mutual

/-- Embeds `DecoderObject::decode_byte`: dispatch on the tag byte at the
cursor.  A `FieldNameId` tag resolves the following ID into the
current-field slot and yields no value; value tags produce a value and the
cursor is advanced by the steps the arm reports (`next_steps` stays 0 for
the fixed-width arms, whose reads already advanced the cursor); every
other byte, including the tags 0x19 and 0x20 the numeric arm of `from_u8`
misses, is the unknown-type decoding error.  The fuel only bounds the
recursion through nested arrays and objects and is never exhausted on the
runs appearing in the theorems below. -/
def decodeByte : Nat → DState → Nat → DOut (Option JValue × DState)
  | 0, _, _ => .panic
  | fuel + 1, st, byte =>
    match SpudTypes.fromU8 byte with
    | some .FieldNameId => do
      let (steps, st1) ← dreadFieldName st
      let st2 ← dnext steps st1
      pure (none, st2)
    | some .Null => do
      let st1 ← dnext 1 st
      pure (some .nullV, st1)
    | some .Bool => do
      let st1 ← dnext 1 st
      let pb ← listByte st1.contents st1.index
      let v ←
        if pb = 0 then pure (JValue.boolV false)
        else if pb = 1 then pure (JValue.boolV true)
        else DOut.err ("Unknown bool value: " ++ toString pb)
      let st2 ← dnext 1 st1
      pure (some v, st2)
    | some (.Number nt) => do
      let (v, st1) ← dnumber nt st
      let st2 ← dnext 0 st1
      pure (some v, st2)
    | some .Decimal => do
      let st1 ← dnext 1 st
      let (bs, st2) ← dreadBytes 16 st1
      let st3 ← dnext 0 st2
      pure (some (.decimalRaw bs), st3)
    | some .String => do
      let (len, st1) ← dreadVarLen st
      if st1.contents.length < st1.index + len then .panic
      else
        let strBytes := (st1.contents.drop st1.index).take len
        if validUtf8 strBytes then do
          let st2 ← dnext len st1
          pure (some (.strV strBytes), st2)
        else .err "invalid utf-8"
    | some .Date => do
      let st1 ← dnext 1 st
      let (bs, st2) ← dreadBytes 4 st1
      let (y, m, d) ← readDate bs
      let st3 ← dnext 0 st2
      pure (some (.dateV y m d), st3)
    | some .Time => do
      let st1 ← dnext 1 st
      let (bs, st2) ← dreadBytes 7 st1
      let (h, mi, s2, ns) ← readTime bs
      let st3 ← dnext 0 st2
      pure (some (.timeV h mi s2 ns), st3)
    | some .DateTime => do
      let st1 ← dnext 1 st
      let (bs, st2) ← dreadBytes 11 st1
      let (y, m, d) ← readDate (bs.take 4)
      let (h, mi, s2, ns) ← readTime (bs.drop 4)
      let st3 ← dnext 0 st2
      pure (some (.dateTimeV y m d h mi s2 ns), st3)
    | some .BinaryBlob => do
      let (len, st1) ← dreadVarLen st
      if st1.contents.length < st1.index + len then .panic
      else
        let bs := (st1.contents.drop st1.index).take len
        let st2 ← dnext len st1
        pure (some (.arrV (bs.map fun b => .intV (b : Int))), st2)
    | some .ArrayStart => do
      let st1 ← dnext 1 st
      let (items, st2) ← arrayLoop fuel st1 []
      let st3 ← dnext 1 st2
      pure (some (.arrV items), st3)
    | some .ObjectStart => do
      let st1 ← dnext 2 st
      let (idBytes, st2) ← dreadBytes 10 st1
      let parentField := st2.currentField
      let (obj, st3) ← objLoop fuel st2 [(oidKey, .strV (b58Encode idBytes))]
      let st4 ← dnext 2 { st3 with currentField := parentField }
      pure (some (.objV obj), st4)
    | _ =>
      .err ("Unknown type: " ++ toString byte ++ " at index " ++
        toString st.index)

/-- The element loop of the `array_start` decoder function: stop on an
array-end tag at the cursor, otherwise dispatch the byte there (a panic
when the cursor has left the slice) and collect produced values. -/
def arrayLoop : Nat → DState → List JValue → DOut (List JValue × DState)
  | 0, _, _ => .panic
  | fuel + 1, st, items => do
    let byte0 ← listByte st.contents st.index
    if SpudTypes.fromU8 byte0 = some .ArrayEnd then pure (items, st)
    else do
      let (v?, st2) ← decodeByte fuel st byte0
      match v? with
      | some v => arrayLoop fuel st2 (items ++ [v])
      | none => arrayLoop fuel st2 items

/-- The field loop of the `object_start` decoder function: stop when the
doubled object-end marker sits at the cursor, otherwise dispatch and
insert produced values under the current field. -/
def objLoop : Nat → DState → List (List Nat × JValue) →
    DOut (List (List Nat × JValue) × DState)
  | 0, _, _ => .panic
  | fuel + 1, st, obj =>
    if st.contents.get? st.index = some SpudTypes.ObjectEnd.asU8 ∧
        st.contents.get? (st.index + 1) = some SpudTypes.ObjectEnd.asU8 then
      pure (obj, st)
    else do
      let byte0 ← listByte st.contents st.index
      let (v?, st2) ← decodeByte fuel st byte0
      match v? with
      | some v => objLoop fuel st2 (objInsert obj st2.currentField v)
      | none => objLoop fuel st2 obj

end

/-- The main loop of `DecoderObject::decode`: while the cursor is inside
the slice, stop on an object-end byte at the cursor, otherwise dispatch
the cached current byte and insert produced values under the current
field. -/
def decodeTopLoop : Nat → DState → List (List Nat × JValue) →
    DOut (List (List Nat × JValue))
  | 0, _, _ => .panic
  | fuel + 1, st, obj =>
    if st.index < st.contents.length then
      if st.currentByte = SpudTypes.ObjectEnd.asU8 then pure obj
      else do
        let (v?, st2) ← decodeByte fuel st st.currentByte
        match v? with
        | some v => decodeTopLoop fuel st2 (objInsert obj st2.currentField v)
        | none => decodeTopLoop fuel st2 obj
    else pure obj

/-- Embeds `DecoderObject::decode` on one root-object slice: from cursor 0
advance one step, read the next 10 bytes as the identity, record its bs58
display under the synthetic `oid` key, then run the dispatch loop.  (Note
the single step: the cursor lands on the second object-start marker, so
the bytes read as the identity are that marker plus the first nine
identity bytes, and the loop starts on the tenth identity byte; the
nested-object path in `decodeByte` advances two steps instead.)  The fuel
is sufficient for every terminating run on the slice. -/
def decodeObj (contents : List Nat) (fieldNames : List (Nat × List Nat)) :
    DOut (List (List Nat × JValue)) := do
  let st0 : DState :=
    { contents := contents, index := 0, fieldNames := fieldNames,
      currentByte := 0, currentField := [] }
  let st1 ← dnext 1 st0
  let (idBytes, st2) ← dreadBytes 10 st1
  decodeTopLoop (4 * contents.length + 16) st2
    [(oidKey, .strV (b58Encode idBytes))]

/-- The candidate tracker of `SpudDecoder::decode_objects`: starting at a
doubled object-start marker, walk forward, counting doubled start markers
up and doubled end markers down (each pair consumes two bytes); when the
depth returns to zero the accumulated bytes, both marker pairs included,
form the object slice and the remainder follows it.  Exhausting the bytes
first means no complete object begins here. -/
def matchObj : List Nat → Nat → List Nat → Option (List Nat × List Nat)
  | b1 :: b2 :: t, depth, acc =>
    if b1 = SpudTypes.ObjectStart.asU8 ∧ b2 = SpudTypes.ObjectStart.asU8 then
      matchObj t (depth + 1) (acc ++ [b1, b2])
    else if b1 = SpudTypes.ObjectEnd.asU8 ∧ b2 = SpudTypes.ObjectEnd.asU8 then
      if depth = 1 then some (acc ++ [b1, b2], t)
      else matchObj t (depth - 1) (acc ++ [b1, b2])
    else matchObj (b2 :: t) depth (acc ++ [b1])
  | _, _, _ => none

/-- The outer scan of `SpudDecoder::decode_objects`: advance byte by byte;
at a doubled object-start marker try to slice out a complete object and
continue after it, or skip one byte when no matching doubled end marker
follows.  The fuel bounds the outer iterations; one per byte suffices
because every iteration consumes at least one byte. -/
def scanB : Nat → List Nat → List (List Nat)
  | 0, _ => []
  | _ + 1, [] => []
  | _ + 1, [_] => []
  | fuel + 1, b1 :: b2 :: t =>
    if b1 = SpudTypes.ObjectStart.asU8 ∧ b2 = SpudTypes.ObjectStart.asU8 then
      match matchObj (b1 :: b2 :: t) 0 [] with
      | some (slice, rest) => slice :: scanB fuel rest
      | none => scanB fuel (b2 :: t)
    else scanB fuel (b2 :: t)

/-- Phase A root scan over the post-header bytes. -/
def scanObjects (contents : List Nat) : List (List Nat) :=
  scanB (contents.length + 1) contents

/-- Decoder state built by `SpudDecoder::new`: the post-header body bytes
and the ID-to-name map parsed from the header. -/
structure DecSt where
  fileContents : List Nat
  fieldNames : List (Nat × List Nat)
deriving DecidableEq, Repr

/-- Phase B over the scanned slices (`decoded_objects.push(decoder.decode()?)`):
the first failing slice aborts the whole decode. -/
def decodeObjRun : List (List Nat) → List (Nat × List Nat) →
    DOut (List (List (List Nat × JValue)))
  | [], _ => .ok []
  | slice :: rest, fns => do
    let o ← decodeObj slice fns
    let os ← decodeObjRun rest fns
    pure (o :: os)

/-- Embeds `SpudDecoder::decode_objects`. -/
def decodeObjectsFn (d : DecSt) : DOut (List (List (List Nat × JValue))) :=
  decodeObjRun (scanObjects d.fileContents) d.fieldNames

/-- The header parse loop of `SpudDecoder::new` over the bytes up to and
including the field-name-list-end tag: read `[length][name bytes][id]`
(indexing panics past the end), decode the name as UTF-8 (a returned
error when invalid), record the entry, and stop when the byte at the
cursor is the end tag.  The loop body always runs at least once.  The
fuel bounds iterations; the cursor grows by at least two per round. -/
def parseFieldNames : Nat → List Nat → Nat → List (Nat × List Nat) →
    DOut (List (Nat × List Nat))
  | 0, _, _, _ => .panic
  | fuel + 1, bytes, cursor, acc => do
    let len ← listByte bytes cursor
    let name ← readRange bytes (cursor + 1) len
    let id ← listByte bytes (cursor + 1 + len)
    if validUtf8 name then
      let acc2 := fnInsert acc id name
      let endByte ← listByte bytes (cursor + 1 + len + 1)
      if endByte = SpudTypes.FieldNameListEnd.asU8 then pure acc2
      else parseFieldNames fuel bytes (cursor + 1 + len + 1) acc2
    else .err "invalid utf-8"

/-- Embeds `SpudDecoder::new`: `split_at` on the version length (a panic
when the input is shorter), an exact version comparison (the
version-mismatch decoding error otherwise), then locate the first
field-name-list-end byte (an error when absent) and parse the region
before it into the ID-to-name map; the remaining bytes become the body. -/
def spudDecoderNew (ver file : List Nat) : DOut DecSt :=
  if file.length < ver.length then .panic
  else if file.take ver.length ≠ ver then
    .err "Invalid SPUD file: version mismatch"
  else
    let rest := file.drop ver.length
    match rest.findIdx? (fun x => x = SpudTypes.FieldNameListEnd.asU8) with
    | some idx =>
      match parseFieldNames (idx + 2) (rest.take (idx + 1)) 0 [] with
      | .ok fns => .ok { fileContents := rest.drop (idx + 1), fieldNames := fns }
      | .err e => .err e
      | .panic => .panic
    | none => .err "Invalid SPUD file: missing field name list end byte"

/-- The serialization choice of `SpudDecoder::decode`: one bare object
when exactly one root was found and no array was requested, otherwise the
array of all roots.  The JSON text emission by serde_json is represented
structurally; `pretty` only toggles whitespace in the source and plays no
role here. -/
inductive DecodedDoc where
  | single (obj : List (List Nat × JValue))
  | array (objs : List (List (List Nat × JValue)))

/-- Embeds `SpudDecoder::decode` down to the serialization choice. -/
def spudDecode (d : DecSt) (wantArray : Bool) : DOut DecodedDoc :=
  match decodeObjectsFn d with
  | .ok objs =>
    if objs.length = 1 ∧ ¬wantArray then .ok (.single (objs.getD 0 []))
    else .ok (.array objs)
  | .err e => .err e
  | .panic => .panic

/-- Layout of the container header as the specification words it: the
version bytes, every registry entry in insertion order as
`[name_length][name bytes][id byte]`, the field-name-list-end tag, then
the body bytes verbatim and nothing after them.  Compared against
`initialiseHeader`, which is translated from the source. -/
def specFieldTableBytes : List ((List Nat × Nat) × Nat) → List Nat
  | [] => []
  | ((name, len), id) :: rest => len :: (name ++ id :: specFieldTableBytes rest)

/-- See `specFieldTableBytes`. -/
def specHeaderLayout (ver : List Nat)
    (fieldNames : List ((List Nat × Nat) × Nat)) (data : List Nat) : List Nat :=
  ver ++ specFieldTableBytes fieldNames ++
  [SpudTypes.FieldNameListEnd.asU8] ++ data

/-- The map-extension order on field registries: every resolvable key
keeps its ID.  Any later state of the same builder tree extends any
earlier one, because `add_field_name` only ever inserts. -/
def fieldMapExtends (m1 m2 : List ((List Nat × Nat) × Nat)) : Prop :=
  ∀ k v, lookupFieldId m1 k = some v → lookupFieldId m2 k = some v

/-- No two adjacent bytes form a doubled object-start marker, so the root
scan never opens a candidate inside the list. -/
def noStartPair : List Nat → Bool
  | b1 :: b2 :: t =>
    if b1 = SpudTypes.ObjectStart.asU8 ∧ b2 = SpudTypes.ObjectStart.asU8 then false
    else noStartPair (b2 :: t)
  | _ => true

/-- A flat root-object block: the doubled start marker, interior bytes
that are not marker bytes, and the doubled end marker. -/
def flatObjectBlock (b : List Nat) : Prop :=
  ∃ inner, b = [SpudTypes.ObjectStart.asU8, SpudTypes.ObjectStart.asU8] ++
      inner ++ [SpudTypes.ObjectEnd.asU8, SpudTypes.ObjectEnd.asU8] ∧
    ∀ x ∈ inner, x ≠ SpudTypes.ObjectStart.asU8 ∧ x ≠ SpudTypes.ObjectEnd.asU8

/-- The object-construction callback of the single-flat-object scenario:
`"name" -> "Spud"` (string), `"age" -> 3` (u8), `"ok" -> true`. -/
def c1Callback (s : BState) : DOut BState := do
  let s1 ← addValueWith s [110, 97, 109, 101] (writeSpudString [83, 112, 117, 100])
  let s2 ← addValueWith s1 [97, 103, 101] (writeSpudU8 3)
  addValueWith s2 [111, 107] (writeSpudBool true)

/-- The identity bytes used in the scenario run (all zero). -/
def c1Oid : List Nat := [0, 0, 0, 0, 0, 0, 0, 0, 0, 0]

/-- Builder state after the scenario object is built: start markers and
identity, the three field tokens with IDs 2, 3 and 4 drawn from the
random stream, the typed values, and the end markers pushed when the
callback returned. -/
def c1Built : BState :=
  { data := [18, 18, 0, 0, 0, 0, 0, 0, 0, 0, 0, 0,
      2, 2, 15, 9, 4, 83, 112, 117, 100, 2, 3, 9, 3, 2, 4, 4, 1, 19, 19]
    fieldNames := [(([110, 97, 109, 101], 4), 2), (([97, 103, 101], 3), 3),
      (([111, 107], 2), 4)]
    seenIds := (((builderNew []).seenIds.set 2 true).set 3 true).set 4 true
    rng := []
    objects := [c1Oid] }

/-- The byte stream `encode` returns for the scenario. -/
def c1EncodedBytes : List Nat :=
  [83, 80, 85, 68, 45, 48, 46, 56, 46, 49,
   4, 110, 97, 109, 101, 2, 3, 97, 103, 101, 3, 2, 111, 107, 4, 1,
   18, 18, 0, 0, 0, 0, 0, 0, 0, 0, 0, 0,
   2, 2, 15, 9, 4, 83, 112, 117, 100, 2, 3, 9, 3, 2, 4, 4, 1, 19, 19,
   222, 173, 190, 239]

/-- Decoder state `SpudDecoder::new` builds from the scenario stream. -/
def c1Dec : DecSt :=
  { fileContents := [18, 18, 0, 0, 0, 0, 0, 0, 0, 0, 0, 0,
      2, 2, 15, 9, 4, 83, 112, 117, 100, 2, 3, 9, 3, 2, 4, 4, 1, 19, 19,
      222, 173, 190, 239]
    fieldNames := [(2, [110, 97, 109, 101]), (3, [97, 103, 101]), (4, [111, 107])] }

/-- Identity bytes of the C2 probe object; the last byte is the null tag
so that the dispatch loop, which starts one byte early, terminates
cleanly and the decoded object can be observed. -/
def c2IdBytes : List Nat := [1, 2, 3, 4, 5, 6, 7, 8, 9, 3]

/-- A root-object slice of the documented form
`[object-start][object-start][10-byte id][object-end][object-end]`. -/
def c2Slice : List Nat := [18, 18] ++ c2IdBytes ++ [19, 19]

/-- An input whose leading bytes differ from the version string in the
last position. -/
def c4BadFile : List Nat := [83, 80, 85, 68, 45, 48, 46, 56, 46, 50]

/-- Identity bytes for the C7 run. -/
def c7Oid : List Nat := [1, 2, 3, 4, 5, 6, 7, 8, 9, 10]

/-- Builder state right after `object` returns in the C7 run: the buffer
already carries the doubled end marker although `encode` has not run. -/
def c7Built : BState :=
  { data := [18, 18] ++ c7Oid ++ [19, 19]
    fieldNames := []
    seenIds := (builderNew []).seenIds
    rng := [5]
    objects := [c7Oid] }

/-- State after resolving the field name `a` once on a fresh builder whose
random stream starts with 5. -/
def c9S1 : BState :=
  { data := [2, 5]
    fieldNames := [(([97], 1), 5)]
    seenIds := (builderNew []).seenIds.set 5 true
    rng := []
    objects := [] }

/-- State after resolving the field name `a` once on an independent fresh
builder whose random stream starts with 7. -/
def c9T2 : BState :=
  { data := [2, 7]
    fieldNames := [(([97], 1), 7)]
    seenIds := (builderNew []).seenIds.set 7 true
    rng := []
    objects := [] }

theorem objEncodePassList_id (objects : List (List Nat)) (d : List Nat) :
    objEncodePassList objects d = d := by
  induction objects with
  | nil => rfl
  | cons _ rest ih => simpa [objEncodePassList] using ih

theorem flatMap_entry_eq_spec (fns : List ((List Nat × Nat) × Nat)) :
    (fns.flatMap fun e => e.1.2 :: (e.1.1 ++ [e.2])) = specFieldTableBytes fns := by
  induction fns with
  | nil => rfl
  | cons e rest ih =>
    obtain ⟨⟨name, len⟩, id⟩ := e
    simp [specFieldTableBytes, ih]

/-- C3: inside the tag vocabulary, `from_u8` inverts `as_u8` for every tag
except the two 128-bit numeric tags: `SpudTypes::from_u8` forwards only
the byte range 5..=14 to the numeric sub-vocabulary, so the codes 0x19
(I128) and 0x20 (U128) decode to none even though `SpudNumberTypes::from_u8`
recognizes them and the encoder emits them; bytes carried by no tag decode
to none. -/
theorem spudTypes_fromU8_roundtrip_except_128 :
    SpudTypes.fromU8 ((SpudTypes.Number SpudNumberTypes.I128).asU8) = none ∧
    SpudTypes.fromU8 ((SpudTypes.Number SpudNumberTypes.U128).asU8) = none ∧
    SpudNumberTypes.fromU8 SpudNumberTypes.I128.asU8 = some SpudNumberTypes.I128 ∧
    SpudNumberTypes.fromU8 SpudNumberTypes.U128.asU8 = some SpudNumberTypes.U128 ∧
    (∀ t : SpudTypes, SpudTypes.fromU8 t.asU8 =
      if t = SpudTypes.Number SpudNumberTypes.I128 ∨
          t = SpudTypes.Number SpudNumberTypes.U128 then none else some t) ∧
    (∀ nt : SpudNumberTypes, SpudNumberTypes.fromU8 nt.asU8 = some nt) ∧
    (∀ b : Fin 256, (∀ t : SpudTypes, t.asU8 ≠ b.val) →
      SpudTypes.fromU8 b.val = none) := by
  decide

/-- C5 counterexample: with an empty registry and empty body the header
writer does not return the version bytes followed by the end tag alone;
four trailer bytes follow the body. -/
theorem initialiseHeader_not_spec_layout :
    initialiseHeader sampleVersion [] [] ≠ specHeaderLayout sampleVersion [] [] := by
  decide

/-- C5 amended: the header writer emits the version bytes, the registry
entries in insertion order as `[name_length][name bytes][id byte]`, the
field-name-list-end tag and the body bytes verbatim, followed by the
fixed four-byte trailer `0xDE 0xAD 0xBE 0xEF` appended after the body. -/
theorem initialiseHeader_layout (ver : List Nat)
    (fns : List ((List Nat × Nat) × Nat)) (body : List Nat) :
    initialiseHeader ver fns body =
      specHeaderLayout ver fns body ++ [0xDE, 0xAD, 0xBE, 0xEF] := by
  simp [initialiseHeader, specHeaderLayout, flatMap_entry_eq_spec]

/-- C6 counterexample: encoding a null appends two bytes, not the single
tag byte the claim states. -/
theorem writeSpudNull_not_single_byte :
    writeSpudNull [] = [3, 3] ∧ ([3, 3] : List Nat) ≠ [3] := by
  exact ⟨rfl, by decide⟩

/-- C6 amended: encoding a null (the `()` value, which also stands for an
optional value with no content) appends exactly two bytes after the field
token: the null tag, then one more byte that is again the null tag,
because the writer macro pushes the tag and `write_null` pushes it a
second time. -/
theorem writeSpudNull_appends_doubled_tag (data : List Nat) :
    writeSpudNull data = data ++ [SpudTypes.Null.asU8, SpudTypes.Null.asU8] ∧
    (writeSpudNull data).length = data.length + 2 := by
  refine ⟨rfl, ?_⟩
  simp [writeSpudNull]

/-- C4 counterexample: on the empty input (shorter than the version
string) the decoder constructor panics in `split_at` instead of returning
the version-mismatch decoding error. -/
theorem spudDecoderNew_short_input_panics :
    spudDecoderNew sampleVersion [] ≠ .err "Invalid SPUD file: version mismatch" ∧
    spudDecoderNew sampleVersion [] = .panic := by
  exact ⟨by decide, by decide⟩

/-- C4 amended: for every input at least as long as the version string
whose leading bytes differ from it, the constructor returns the
version-mismatch decoding error (never a generic parse error); an input
shorter than the version string makes `split_at` panic instead of
producing an error. -/
theorem spudDecoderNew_version_gate (ver file : List Nat) :
    (file.length < ver.length → spudDecoderNew ver file = .panic) ∧
    (ver.length ≤ file.length → file.take ver.length ≠ ver →
      spudDecoderNew ver file = .err "Invalid SPUD file: version mismatch") := by
  constructor
  · intro h
    simp [spudDecoderNew, h]
  · intro h hne
    unfold spudDecoderNew
    rw [if_neg (by omega), if_pos hne]

theorem spudDecoderNew_version_gate_witness :
    spudDecoderNew sampleVersion [83] = .panic ∧
    spudDecoderNew sampleVersion c4BadFile =
      .err "Invalid SPUD file: version mismatch" := by
  exact ⟨(spudDecoderNew_version_gate sampleVersion [83]).1 (by decide),
    (spudDecoderNew_version_gate sampleVersion c4BadFile).2 (by decide) (by decide)⟩

/-- C8: the length prefix written before a string or blob payload uses
the narrowest of the four unsigned width tags whose range holds the byte
count: the one-byte tag up to 255, the two-byte tag up to 65535, the
four-byte tag up to 4294967295, the eight-byte tag below 2^64. -/
theorem addValueLength_minimal (data : List Nat) (n : Nat) :
    (n ≤ 255 → addValueLength data n =
      data ++ (SpudTypes.Number SpudNumberTypes.U8).asU8 :: leBytes 1 n) ∧
    (255 < n → n ≤ 65535 → addValueLength data n =
      data ++ (SpudTypes.Number SpudNumberTypes.U16).asU8 :: leBytes 2 n) ∧
    (65535 < n → n ≤ 4294967295 → addValueLength data n =
      data ++ (SpudTypes.Number SpudNumberTypes.U32).asU8 :: leBytes 4 n) ∧
    (4294967295 < n → n < 18446744073709551616 → addValueLength data n =
      data ++ (SpudTypes.Number SpudNumberTypes.U64).asU8 :: leBytes 8 n) := by
  refine ⟨fun h => ?_, fun h1 h2 => ?_, fun h1 h2 => ?_, fun h1 h2 => ?_⟩
  · rw [addValueLength, if_pos (by omega)]
  · rw [addValueLength, if_neg (by omega), if_pos (by omega)]
  · rw [addValueLength, if_neg (by omega), if_neg (by omega), if_pos (by omega)]
  · rw [addValueLength, if_neg (by omega), if_neg (by omega), if_neg (by omega),
      if_pos (by omega)]

theorem addValueLength_minimal_witness :
    addValueLength [] 200 = [9, 200] ∧
    addValueLength [] 300 = [10, 44, 1] ∧
    addValueLength [] 70000 = [11, 112, 17, 1, 0] := by
  refine ⟨?_, ?_, ?_⟩
  · rw [(addValueLength_minimal [] 200).1 (by omega)]; rfl
  · rw [(addValueLength_minimal [] 300).2.1 (by omega) (by omega)]; rfl
  · rw [(addValueLength_minimal [] 70000).2.2.1 (by omega) (by omega)]; rfl

/-- C7 counterexample: after one `object` call with an empty callback the
shared buffer already ends with the doubled object-end marker although
nothing has been flushed, and `encode` replaces the buffer contents
rather than only appending end markers (the old buffer is not even a
prefix of the new one). -/
theorem builderObject_end_markers_before_flush :
    builderObject (builderNew [5]) c7Oid (fun s => .ok s) = .ok c7Built ∧
    c7Built.data = [18, 18] ++ c7Oid ++ [19, 19] ∧
    (builderEncode sampleVersion c7Built).2.data.take c7Built.data.length ≠
      c7Built.data := by
  refine ⟨rfl, rfl, by decide⟩

/-- C7 amended: the doubled object-end marker is appended the moment the
object-construction callback returns, not at flush; and flush appends no
end marker at all: the per-object encode pass writes nothing, and `encode`
builds the header around the current buffer contents and then replaces
the buffer with the result instead of appending to it. -/
theorem builderObject_flush_behavior :
    (∀ (s : BState) (oid : List Nat) (f : BState → DOut BState) (s2 : BState),
      f (objectStartWrite s oid) = .ok s2 →
      builderObject s oid f = .ok { s2 with
        data := s2.data ++ [SpudTypes.ObjectEnd.asU8, SpudTypes.ObjectEnd.asU8] }) ∧
    (∀ (ver : List Nat) (s : BState),
      (builderEncode ver s).1 = initialiseHeader ver s.fieldNames s.data ∧
      (builderEncode ver s).2 =
        { s with data := initialiseHeader ver s.fieldNames s.data }) := by
  constructor
  · intro s oid f s2 h
    simp [builderObject, h]
  · intro ver s
    constructor
    · simp [builderEncode, objEncodePassList_id]
    · simp [builderEncode, objEncodePassList_id]

theorem builderObject_flush_behavior_witness :
    builderObject (builderNew [5]) c7Oid (fun s => .ok s) =
      .ok { objectStartWrite (builderNew [5]) c7Oid with
        data := (objectStartWrite (builderNew [5]) c7Oid).data ++
          [SpudTypes.ObjectEnd.asU8, SpudTypes.ObjectEnd.asU8] } ∧
    (builderEncode sampleVersion (builderNew [])).1 =
      initialiseHeader sampleVersion (builderNew []).fieldNames
        (builderNew []).data := by
  exact ⟨builderObject_flush_behavior.1 (builderNew [5]) c7Oid (fun s => .ok s)
      (objectStartWrite (builderNew [5]) c7Oid) rfl,
    (builderObject_flush_behavior.2 sampleVersion (builderNew [])).1⟩

theorem lookupFieldId_append_of_none (m : List ((List Nat × Nat) × Nat))
    (k : List Nat × Nat) (v : Nat) (h : lookupFieldId m k = none) :
    lookupFieldId (m ++ [(k, v)]) k = some v := by
  induction m with
  | nil => simp [lookupFieldId]
  | cons e rest ih =>
    obtain ⟨k0, v0⟩ := e
    by_cases hk : k0 = k
    · simp [lookupFieldId, hk] at h
    · simp only [List.cons_append, lookupFieldId, if_neg hk] at h ⊢
      exact ih h

/-- C9: resolving a field name that a previous successful resolution
registered yields the same one-byte ID again from any state whose
registry extends the one that resolution produced — in one builder tree
the registry is shared by every object, including nested ones, and only
grows, so the same name resolves to the same ID everywhere in the tree;
and two independently created builders, which draw from their own random
streams, can assign different IDs to the same name (here 5 and 7). -/
theorem addFieldName_stable :
    (∀ (s : BState) (name : List Nat) (id : Nat) (s1 : BState),
      addFieldName s name = .ok (id, s1) →
      ∀ s2 : BState, fieldMapExtends s1.fieldNames s2.fieldNames →
      ∃ s3, addFieldName s2 name = .ok (id, s3)) ∧
    (addFieldName (builderNew [5]) [97] = .ok (5, c9S1) ∧
     addFieldName (builderNew [7]) [97] = .ok (7, c9T2) ∧ (5 : Nat) ≠ 7) := by
  refine ⟨?_, rfl, rfl, by decide⟩
  intro s name id s1 h s2 hext
  by_cases hlen : 255 < name.length
  · rw [addFieldName, if_pos hlen] at h
    exact absurd h (by simp)
  have hlook : lookupFieldId s1.fieldNames (name, name.length) = some id := by
    rw [addFieldName, if_neg hlen] at h
    cases hc : lookupFieldId s.fieldNames (name, name.length) with
    | some id0 =>
      rw [hc] at h
      obtain ⟨h1, h2⟩ := by simpa using h
      subst h1
      rw [← h2]
      exact hc
    | none =>
      rw [hc] at h
      cases hg : generateU8Id s.seenIds s.rng with
      | ok trip =>
        obtain ⟨idg, seen2, rng2⟩ := trip
        rw [hg] at h
        obtain ⟨h1, h2⟩ := by simpa using h
        subst h1
        rw [← h2]
        exact lookupFieldId_append_of_none _ _ _ hc
      | err e => rw [hg] at h; exact absurd h (by simp)
      | panic => rw [hg] at h; exact absurd h (by simp)
  have h2 := hext _ _ hlook
  refine ⟨{ s2 with data := s2.data ++ [SpudTypes.FieldNameId.asU8, id] }, ?_⟩
  rw [addFieldName, if_neg hlen, h2]

theorem addFieldName_stable_witness :
    ∃ s3, addFieldName c9S1 [97] = .ok (5, s3) :=
  addFieldName_stable.1 (builderNew [5]) [97] 5 c9S1 (by rfl) c9S1
    (fun _ _ h => h)

/-- C1 (failing scenario): running the single-flat-object scenario —
fields `name -> Spud` (string), `age -> 3` (u8), `ok -> true` on one root
object with all-zero identity bytes and field IDs 2, 3, 4 — produces the
staged bytes below, the decoder constructor accepts them, but `decode`
fails with the unknown-type error at index 11 instead of yielding the
single JSON object: `DecoderObject::decode` advances one byte (not two)
before reading the 10 identity bytes, so the dispatch loop lands on the
last identity byte (here 0). -/
theorem c1_scenario_decode_fails :
    builderObject (builderNew [2, 3, 4]) c1Oid c1Callback = .ok c1Built ∧
    (builderEncode sampleVersion c1Built).1 = c1EncodedBytes ∧
    spudDecoderNew sampleVersion c1EncodedBytes = .ok c1Dec ∧
    spudDecode c1Dec false = .err "Unknown type: 0 at index 11" := by
  exact ⟨by rfl, by rfl, by rfl, by rfl⟩

/-- C2 (failing slice decode): on a scanner-produced root-object slice of
the documented form `[start][start][10-byte id][end][end]`, the decoder
records under `oid` the base58 rendering of the second start-marker byte
followed by only the first nine identity bytes — not of the ten identity
bytes — and, with the cursor left on the tenth identity byte, dispatches
it as a tag (here the null tag, which yields a spurious entry under the
empty current field) before any real field token. -/
theorem c2_oid_read_off_by_one :
    scanObjects c2Slice = [c2Slice] ∧
    decodeObj c2Slice [] =
      .ok [(oidKey, .strV (b58Encode ([18] ++ c2IdBytes.take 9))),
        ([], .nullV)] ∧
    b58Encode ([18] ++ c2IdBytes.take 9) ≠ b58Encode c2IdBytes := by
  exact ⟨by rfl, by rfl, by decide⟩

theorem matchObj_cc (a b : Nat) (t acc : List Nat) (d : Nat) :
    matchObj (a :: b :: t) d acc =
      if a = 18 ∧ b = 18 then matchObj t (d + 1) (acc ++ [a, b])
      else if a = 19 ∧ b = 19 then
        (if d = 1 then some (acc ++ [a, b], t)
         else matchObj t (d - 1) (acc ++ [a, b]))
      else matchObj (b :: t) d (acc ++ [a]) := rfl

theorem scanB_cc (f : Nat) (a b : Nat) (t : List Nat) :
    scanB (f + 1) (a :: b :: t) =
      if a = 18 ∧ b = 18 then
        match matchObj (a :: b :: t) 0 [] with
        | some (slice, rest) => slice :: scanB f rest
        | none => scanB f (b :: t)
      else scanB f (b :: t) := rfl

theorem noStartPair_cc (a b : Nat) (t : List Nat) :
    noStartPair (a :: b :: t) =
      if a = 18 ∧ b = 18 then false else noStartPair (b :: t) := rfl

theorem scanB_nil (f : Nat) : scanB f [] = [] := by
  cases f <;> rfl

theorem scanB_one (f : Nat) (a : Nat) : scanB f [a] = [] := by
  cases f <;> rfl

theorem matchObj_flat (inner t : List Nat)
    (h : ∀ x ∈ inner, x ≠ 18 ∧ x ≠ 19) :
    ∀ acc, matchObj (inner ++ 19 :: 19 :: t) 1 acc =
      some (acc ++ (inner ++ [19, 19]), t) := by
  induction inner with
  | nil =>
    intro acc
    rw [List.nil_append, matchObj_cc, if_neg (by omega), if_pos ⟨rfl, rfl⟩,
      if_pos rfl]
    simp
  | cons b rest ih =>
    intro acc
    obtain ⟨hb18, hb19⟩ := h b (by simp)
    have h2 : ∀ x ∈ rest, x ≠ 18 ∧ x ≠ 19 := fun x hx => h x (by simp [hx])
    cases rest with
    | nil =>
      rw [List.cons_append, List.nil_append, matchObj_cc,
        if_neg (by tauto), if_neg (by tauto), matchObj_cc,
        if_neg (by omega), if_pos ⟨rfl, rfl⟩, if_pos rfl]
      simp
    | cons c rest2 =>
      rw [List.cons_append, List.cons_append, matchObj_cc,
        if_neg (by tauto), if_neg (by tauto)]
      have hih := ih h2 (acc ++ [b])
      rw [List.cons_append] at hih
      rw [hih]
      simp

theorem scanB_noStart : ∀ (f : Nat) (l : List Nat),
    noStartPair l = true → scanB f l = [] := by
  intro f
  induction f with
  | zero => intro l _; rfl
  | succ f ih =>
    intro l h
    cases l with
    | nil => rfl
    | cons b1 rest =>
      cases rest with
      | nil => rfl
      | cons b2 t =>
        rw [noStartPair_cc] at h
        have hcond : ¬(b1 = 18 ∧ b2 = 18) := by
          intro hc
          rw [if_pos hc] at h
          exact absurd h (by simp)
        rw [if_neg hcond] at h
        rw [scanB_cc, if_neg hcond]
        exact ih _ h

theorem scanB_junk : ∀ (j t : List Nat) (f : Nat),
    noStartPair (j ++ t.take 1) = true →
    scanB (j.length + f) (j ++ t) = scanB f t := by
  intro j
  induction j with
  | nil => intro t f _; simp
  | cons a j ih =>
    intro t f h
    cases j with
    | nil =>
      cases t with
      | nil =>
        rw [List.append_nil, scanB_nil,
          show ([a] : List Nat).length + f = f + 1 by simp [Nat.add_comm],
          scanB_one]
      | cons b t2 =>
        have h2 : noStartPair (a :: b :: []) = true := h
        rw [noStartPair_cc] at h2
        have hcond : ¬(a = 18 ∧ b = 18) := by
          intro hc
          rw [if_pos hc] at h2
          exact absurd h2 (by simp)
        rw [show ([a] : List Nat).length + f = f + 1 by simp [Nat.add_comm]]
        show scanB (f + 1) (a :: b :: t2) = scanB f (b :: t2)
        rw [scanB_cc, if_neg hcond]
    | cons c j2 =>
      have h2 : noStartPair (a :: c :: (j2 ++ t.take 1)) = true := h
      rw [noStartPair_cc] at h2
      have hcond : ¬(a = 18 ∧ c = 18) := by
        intro hc
        rw [if_pos hc] at h2
        exact absurd h2 (by simp)
      rw [if_neg hcond] at h2
      have e1 : (a :: c :: j2).length + f = ((c :: j2).length + f) + 1 := by
        simp
        omega
      rw [e1]
      show scanB (((c :: j2).length + f) + 1) (a :: c :: (j2 ++ t)) = scanB f t
      rw [scanB_cc, if_neg hcond]
      exact ih t f h2

theorem flat_blocks_length_le (blocks : List (List Nat))
    (h : ∀ b ∈ blocks, flatObjectBlock b) :
    blocks.length ≤ blocks.flatten.length := by
  induction blocks with
  | nil => simp
  | cons b blocks ih =>
    obtain ⟨inner, hb, _⟩ := h b (by simp)
    have hr := ih (fun x hx => h x (by simp [hx]))
    have hb4 : (4 : Nat) ≤ b.length := by
      rw [hb]
      simp [SpudTypes.asU8]
    rw [List.flatten_cons, List.length_append, List.length_cons]
    omega

theorem scanB_flat_blocks : ∀ (blocks : List (List Nat)) (t : List Nat) (f : Nat),
    (∀ b ∈ blocks, flatObjectBlock b) →
    scanB (blocks.length + f) (blocks.flatten ++ t) = blocks ++ scanB f t := by
  intro blocks
  induction blocks with
  | nil => intro t f _; simp
  | cons b blocks ih =>
    intro t f h
    obtain ⟨inner, hb, hclean⟩ := h b (by simp)
    have hrest : ∀ x ∈ blocks, flatObjectBlock x := fun x hx => h x (by simp [hx])
    have hclean2 : ∀ x ∈ inner, x ≠ 18 ∧ x ≠ 19 := hclean
    subst hb
    have e1 : (([18, 18] ++ inner ++ [19, 19] : List Nat) :: blocks).length + f =
        (blocks.length + f) + 1 := by
      simp only [List.length_cons]
      omega
    have hlist :
        (([18, 18] ++ inner ++ [19, 19] : List Nat) :: blocks).flatten ++ t =
          18 :: 18 :: (inner ++ 19 :: 19 :: (blocks.flatten ++ t)) := by
      rw [List.flatten_cons]
      simp [SpudTypes.asU8, List.append_assoc]
    have hmatch :
        matchObj (18 :: 18 :: (inner ++ 19 :: 19 :: (blocks.flatten ++ t))) 0 [] =
          some (18 :: 18 :: (inner ++ [19, 19]), blocks.flatten ++ t) := by
      rw [matchObj_cc, if_pos ⟨rfl, rfl⟩]
      rw [show (0 : Nat) + 1 = 1 from rfl, List.nil_append]
      rw [matchObj_flat inner (blocks.flatten ++ t) hclean2 [18, 18]]
      rfl
    have e2 :
        (([18, 18] ++ inner ++ [19, 19] : List Nat)) = 18 :: 18 :: (inner ++ [19, 19]) := by
      simp [SpudTypes.asU8]
    simp only [SpudTypes.asU8]
    rw [e1, hlist, scanB_cc, if_pos ⟨rfl, rfl⟩, hmatch]
    show (18 :: 18 :: (inner ++ [19, 19])) ::
        scanB (blocks.length + f) (blocks.flatten ++ t) =
      ([18, 18] ++ inner ++ [19, 19]) :: blocks ++ scanB f t
    rw [ih t f hrest, e2, List.cons_append]

theorem noStartPair_short (l : List Nat) (h : l.length ≤ 1) :
    noStartPair l = true := by
  cases l with
  | nil => rfl
  | cons a rest =>
    cases rest with
    | nil => rfl
    | cons b t => simp at h

/-- C10: body bytes that are not part of a complete root object are
silently skipped by the root scan and never produce an error: for any
sequence of well-formed root blocks surrounded by junk that contains no
doubled object-start marker — such as a stray single object-start byte or
the trailer bytes `0xDE 0xAD 0xBE 0xEF` the header writer appends after
the body — the scan returns exactly the complete root blocks, and the
whole object decode behaves as if the junk bytes were absent. -/
theorem scan_skips_nonobject_bytes
    (junk1 : List Nat) (blocks : List (List Nat)) (junk2 : List Nat)
    (hblocks : ∀ b ∈ blocks, flatObjectBlock b)
    (hj1 : noStartPair (junk1 ++ (blocks.flatten ++ junk2).take 1) = true)
    (hj2 : noStartPair junk2 = true) :
    scanObjects (junk1 ++ blocks.flatten ++ junk2) = blocks ∧
    (∀ fns, decodeObjectsFn
        { fileContents := junk1 ++ blocks.flatten ++ junk2, fieldNames := fns } =
      decodeObjectsFn { fileContents := blocks.flatten, fieldNames := fns }) := by
  have key : ∀ (j1 j2 : List Nat),
      noStartPair (j1 ++ (blocks.flatten ++ j2).take 1) = true →
      noStartPair j2 = true →
      scanObjects (j1 ++ (blocks.flatten ++ j2)) = blocks := by
    intro j1 j2 h1 h2
    unfold scanObjects
    have e1 : (j1 ++ (blocks.flatten ++ j2)).length + 1 =
        j1.length + ((blocks.flatten ++ j2).length + 1) := by
      simp only [List.length_append]
      omega
    rw [e1, scanB_junk j1 (blocks.flatten ++ j2) _ h1]
    have hlen : blocks.length ≤ blocks.flatten.length :=
      flat_blocks_length_le blocks hblocks
    have e2 : (blocks.flatten ++ j2).length + 1 =
        blocks.length + ((blocks.flatten ++ j2).length + 1 - blocks.length) := by
      simp only [List.length_append]
      omega
    rw [e2, scanB_flat_blocks blocks j2 _ hblocks,
      scanB_noStart _ j2 h2]
    simp
  have h1 : scanObjects (junk1 ++ blocks.flatten ++ junk2) = blocks := by
    rw [List.append_assoc]
    exact key junk1 junk2 hj1 hj2
  have h2 : scanObjects blocks.flatten = blocks := by
    have := key [] []
      (by simpa using noStartPair_short _ (List.length_take_le 1 _)) rfl
    simpa using this
  refine ⟨h1, fun fns => ?_⟩
  unfold decodeObjectsFn
  rw [h1, h2]

theorem scan_skips_nonobject_bytes_witness :
    scanObjects ([18, 0] ++ ([[18, 18, 7, 7, 19, 19]] : List (List Nat)).flatten ++
        [18, 222, 173, 190, 239]) = [[18, 18, 7, 7, 19, 19]] ∧
    (∀ fns, decodeObjectsFn
        { fileContents := [18, 0] ++ ([[18, 18, 7, 7, 19, 19]] : List (List Nat)).flatten ++
            [18, 222, 173, 190, 239], fieldNames := fns } =
      decodeObjectsFn
        { fileContents := ([[18, 18, 7, 7, 19, 19]] : List (List Nat)).flatten,
          fieldNames := fns }) :=
  scan_skips_nonobject_bytes [18, 0] [[18, 18, 7, 7, 19, 19]] [18, 222, 173, 190, 239]
    (fun b hb => by
      simp only [List.mem_singleton] at hb
      subst hb
      exact ⟨[7, 7], rfl, by decide⟩)
    (by decide) (by decide)
